import Mathlib

/-!
Verification of the DatabaseExtractor repository: a shallow embedding of its
data model, introspection orchestrator, filter, export pipeline and cache
round-trip, with theorems settling the specification's claims.

Conventions of the embedding:
* Go strings are Lean `String`s; `len` on a Go string is its UTF-8 byte
  length, embedded as `golen`.
* Fallible Go functions returning `(T, error)` become `Except String T`.
* The database connection is an oracle (`DbConn`) mapping each prepared
  query of `database.go` to its result rows; row-scanning logic is embedded.
* File-system effects are reified as a list of `FsAction` values.
-/

namespace DatabaseExtractor

/-- UTF-8 byte width of a character, as Go's `len` counts it. -/
def charBytes (c : Char) : Nat :=
  if c.toNat < 0x80 then 1
  else if c.toNat < 0x800 then 2
  else if c.toNat < 0x10000 then 3
  else 4

/-- Go `len(s)` on a string: its UTF-8 byte length. -/
def golen (s : String) : Nat :=
  (s.data.map charBytes).sum

/-- Go `strings.ToLower` (ASCII range, which is all the repository feeds it). -/
def goToLower (s : String) : String :=
  String.mk (s.data.map Char.toLower)

/-- Go `unicode.IsSpace` on the ASCII whitespace the repository encounters. -/
def isGoSpace (c : Char) : Bool :=
  c == ' ' || c == '\t' || c == '\n' || c == '\x0b' || c == '\x0c' || c == '\r'

/-- Go `strings.TrimSpace` on a character list. -/
def goTrimSpace (l : List Char) : List Char :=
  ((l.dropWhile isGoSpace).reverse.dropWhile isGoSpace).reverse

/-- Split a character list at every occurrence of `sep`, Go `strings.Split`
with a one-character separator: `Split("", sep) = [""]`. -/
def splitChar (sep : Char) : List Char → List (List Char)
  | [] => [[]]
  | c :: cs =>
    if c = sep then [] :: splitChar sep cs
    else
      match splitChar sep cs with
      | [] => [[c]]
      | l :: ls => (c :: l) :: ls

/-- Go `strings.HasPrefix` on character lists. -/
def startsWithStr (p s : List Char) : Bool :=
  p.isPrefixOf s

/-- Go `strings.TrimPrefix` on character lists. -/
def goTrimPre (p s : List Char) : List Char :=
  if p.isPrefixOf s then s.drop p.length else s

/-- `cleanFn` from the file writer: replaces `"/"` with `"-"`. -/
def cleanFn (str : String) : String :=
  String.mk (str.data.map (fun c => if c = '/' then '-' else c))

/-- `Column` represents a column in a table or view (`database.go`). -/
structure Column where
  Name : String
  Type_Name : String
  Max_Length : Int
  Precision : Int
  Scale : Int
  Collation_Name : String
  Is_Nullable : Bool
  Is_Identity : Bool
deriving DecidableEq, Repr

/-- `Dependency` represents a dependency of a table or view (`database.go`). -/
structure Dependency where
  ReferencedDB : String
  ReferencedSchema : String
  ReferencedTable : String
deriving DecidableEq, Repr

/-- `TableInfo` represents a table or view (`database.go`). -/
structure TableInfo where
  Database : String
  Schema : String
  TableName : String
  Definition : String
  Columns : List Column
  Dependencies : List Dependency
  «Type» : String
deriving DecidableEq, Repr

/-- `Config` structure for database configurations (`main.go`). -/
structure Config where
  Server : String
  User : String
  Password : String
  DBType : String
  Databases : List String
  IncludeTables : List String
  ExcludeTables : List String

/-- `filterData` from `main.go`: keeps entries according to the include and
exclude lists. The Go code materialises both lists as `map[string]bool`;
lookup in such a map is list membership, and `len(includes) > 0` is
non-emptiness of the include list, embedded via `List.contains` and
`List.isEmpty`. -/
def filterData : List TableInfo → List String → List String → List TableInfo
  | [], _, _ => []
  | table :: rest, includeTables, excludeTables =>
    if !includeTables.isEmpty && !includeTables.contains table.TableName then
      filterData rest includeTables excludeTables
    else if excludeTables.contains table.TableName then
      filterData rest includeTables excludeTables
    else
      table :: filterData rest includeTables excludeTables

/-- Go's zero `time.Time`, projected to the calendar date it denotes
(January 1 of year 1). The repository only ever reads the date part. -/
structure GoTime where
  year : Nat
  month : Nat
  day : Nat
deriving DecidableEq, Repr

/-- The zero value `time.Time{}`. -/
def zeroGoTime : GoTime := ⟨1, 1, 1⟩

/-- Numeric value of an ASCII digit character. -/
def digitVal (c : Char) : Nat := c.toNat - 48

/-- Gregorian leap-year rule, as Go's `time` package applies it. -/
def isLeapYear (y : Nat) : Bool :=
  (y % 4 == 0 && y % 100 != 0) || y % 400 == 0

/-- Days in a month, used by `time.Parse` to validate the day field. -/
def daysIn (y m : Nat) : Nat :=
  if m = 2 then (if isLeapYear y then 29 else 28)
  else if m = 4 ∨ m = 6 ∨ m = 9 ∨ m = 11 then 30
  else 31

/-- `time.Parse("2006-01-02", s)`: exactly four digits, dash, two digits,
dash, two digits, with month and day range-checked; any mismatch is a parse
error, embedded as `none`. -/
def parseGoDate : List Char → Option GoTime
  | [y1, y2, y3, y4, s1, m1, m2, s2, d1, d2] =>
    if y1.isDigit && y2.isDigit && y3.isDigit && y4.isDigit && s1 == '-'
        && m1.isDigit && m2.isDigit && s2 == '-' && d1.isDigit && d2.isDigit then
      let y := ((digitVal y1 * 10 + digitVal y2) * 10 + digitVal y3) * 10 + digitVal y4
      let m := digitVal m1 * 10 + digitVal m2
      let d := digitVal d1 * 10 + digitVal d2
      if 1 ≤ m ∧ m ≤ 12 ∧ 1 ≤ d ∧ d ≤ daysIn y m then some ⟨y, m, d⟩ else none
    else none
  | _ => none

/-- Case-insensitive prefix test, the `(?i)` mode of the three regexes. -/
def icasePre (p s : List Char) : Bool :=
  (p.map Char.toLower).isPrefixOf (s.map Char.toLower)

/-- Leftmost match of the regex `(?i)LABEL(.*)`: scan for the first
case-insensitive occurrence of the literal label; the capture is the rest of
that line (`.` does not cross a newline). `none` when `MatchString` is false. -/
def findCap (label : List Char) : List Char → Option (List Char)
  | [] => if icasePre label [] then some [] else none
  | c :: t =>
    if icasePre label (c :: t) then
      some (((c :: t).drop label.length).takeWhile (fun x => x ≠ '\n'))
    else findCap label t

/-- Leftmost match of `(?i)(L1|L2)(.*)` for two literal alternatives. -/
def findCap2 (l1 l2 : List Char) : List Char → Option (List Char)
  | [] =>
    if icasePre l1 [] then some []
    else if icasePre l2 [] then some []
    else none
  | c :: t =>
    if icasePre l1 (c :: t) then
      some (((c :: t).drop l1.length).takeWhile (fun x => x ≠ '\n'))
    else if icasePre l2 (c :: t) then
      some (((c :: t).drop l2.length).takeWhile (fun x => x ≠ '\n'))
    else findCap2 l1 l2 t

/-- The literal of `(?i)Ersteller/in: (.*)` before the capture group. -/
def creatorLabel : List Char := "Ersteller/in: ".data

/-- The literal of `(?i)Erstelldatum: (.*)` before the capture group. -/
def dateLabel : List Char := "Erstelldatum: ".data

/-- First alternative of `(?i)(Kommentar|Description): (.*)`. -/
def kommentarLabel : List Char := "Kommentar: ".data

/-- Second alternative of `(?i)(Kommentar|Description): (.*)`. -/
def descriptionLabel : List Char := "Description: ".data

/-- `extractDataFromComment` from the file writer: requires all three labels
to match, returning the empty triple otherwise; the creation date is parsed
with `time.Parse("2006-01-02", ·)` and its error is discarded, leaving the
zero `time.Time` on failure. -/
def extractDataFromComment (comment : String) : String × GoTime × String :=
  match findCap creatorLabel comment.data,
        findCap dateLabel comment.data,
        findCap2 kommentarLabel descriptionLabel comment.data with
  | some creator, some creationDate, some commentText =>
    (String.mk (goTrimSpace creator),
     (parseGoDate creationDate).getD zeroGoTime,
     String.mk (goTrimSpace commentText))
  | _, _, _ => ("", zeroGoTime, "")

/-- The `b2i` table of `generateTableStructTable`, rendered by `%d`. -/
def b2iStr (b : Bool) : String := if b then "1" else "0"

/-- One `%s|%s|%d|%d|%d|%s|%d|%d\n` row of the structure table. -/
def structRow (col : Column) : String :=
  col.Name ++ "|" ++ col.Type_Name ++ "|" ++ toString col.Max_Length ++ "|"
    ++ toString col.Precision ++ "|" ++ toString col.Scale ++ "|"
    ++ col.Collation_Name ++ "|" ++ b2iStr col.Is_Nullable ++ "|"
    ++ b2iStr col.Is_Identity ++ "\n"

/-- `generateTableStructTable`: markdown table of the columns. -/
def generateTableStructTable (view : TableInfo) : String :=
  view.Columns.foldl (fun table col => table ++ structRow col)
    "Name|Type|Length|Precision|Scale|Collation|Nullable|Identity\n--|--|--|--|--|--|--|--\n"

/-- One row of the dependency table in `generateInfoFile`; `ToLower` covers
the text up to and including the referenced schema, the second occurrence of
the referenced table and the `.info.md)` suffix are appended unlowered. -/
def depRow (dep : Dependency) : String :=
  goToLower (dep.ReferencedDB ++ "|" ++ dep.ReferencedSchema ++ "|["
      ++ dep.ReferencedTable ++ "](../../" ++ dep.ReferencedDB ++ "/"
      ++ dep.ReferencedSchema)
    ++ "/" ++ dep.ReferencedTable ++ ".info.md)\n"

/-- The dependency-table loop of `generateInfoFile`, started from an empty
accumulator. -/
def depTable (deps : List Dependency) : String :=
  deps.foldl (fun infofile dep => infofile ++ depRow dep) ""

/-- One iteration of the change-history loop of `generateInfoFile`:
trim the line, and when it starts with `Commit;` strip that marker and
append the line with `;` turned into `|`. -/
def commitLineStep (infofile : String) (l : List Char) : String :=
  let l1 := goTrimSpace l
  if startsWithStr "Commit;".data l1 then
    infofile
      ++ String.mk ((goTrimPre "Commit;".data l1).map
          (fun c => if c = ';' then '|' else c))
      ++ "\n"
  else infofile

/-- The information document of `generateInfoFile` up to and including the
dependency-table header, before the dependency rows are appended. -/
def infoHead (view : TableInfo) : String :=
  let sqllines := splitChar '\n' view.Definition.data
  let commentText := (extractDataFromComment view.Definition).2.2
  let head1 := "# Infodatei zum View ["
    ++ goToLower (view.Database ++ "." ++ view.Schema) ++ "." ++ view.TableName
    ++ "](../../" ++ goToLower (view.Database ++ "/" ++ view.Schema) ++ "/"
    ++ view.TableName ++ ".sql)\n\n" ++ commentText ++ "\n\n"
  let head2 := head1 ++ "## Tabellenstruktur\n\n" ++ generateTableStructTable view
    ++ "\n\n## Änderungen\n\nBenutzer|Datum|Kommentar\n--|--|--\n"
  let head3 := sqllines.foldl commitLineStep head2
  head3 ++ "\n" ++ "## Abhängigkeiten" ++ "\n\n"
    ++ "DB|Schema|Tabelle/View" ++ "\n" ++ "--|--|--" ++ "\n"

/-- `generateInfoFile`: the markdown information document for a view — the
header sections, then one appended row per dependency edge, then two closing
newlines. -/
def generateInfoFile (view : TableInfo) : String :=
  view.Dependencies.foldl (fun infofile dep => infofile ++ depRow dep)
    (infoHead view) ++ "\n\n"

/-- `generateTableInfoFile`: the markdown information document for a table. -/
def generateTableInfoFile (view : TableInfo) : String :=
  "# Infodatei zur Tabelle " ++ goToLower (view.Database ++ "." ++ view.Schema)
    ++ "." ++ view.TableName ++ "\n\n"
    ++ "## Tabellenstruktur\n\n" ++ generateTableStructTable view
    ++ view.Definition

/-- `mapSQLTypeToGoType`: fixed lookup from SQL type names to Go types. -/
def mapSQLTypeToGoType (sqlType : String) : String :=
  if sqlType = "int" then "int"
  else if sqlType = "varchar" then "string"
  else if sqlType = "nvarchar" then "string"
  else if sqlType = "datetime" then "time.Time"
  else if sqlType = "bit" then "bool"
  else if sqlType = "float" then "float64"
  else if sqlType = "decimal" then "float64"
  else "interface\x7b\x7d"

/-- One field line of the generated Go struct. -/
def goStructField (col : Column) : String :=
  "\t" ++ col.Name ++ " " ++ mapSQLTypeToGoType col.Type_Name
    ++ " `json:\"" ++ col.Name ++ "\"`\n"

/-- `generateGoStruct`: the generated Go type definition for an entry. -/
def generateGoStruct (view : TableInfo) : String :=
  view.Columns.foldl (fun structDef col => structDef ++ goStructField col)
    ("package main\n\n"
      ++ "// " ++ view.TableName ++ " represents a database table/view structure\n"
      ++ "type " ++ view.TableName ++ " struct \x7b\n")
    ++ "\x7d\n"

/-- A reified file-system effect of the export pipeline. -/
inductive FsAction where
  | mkdir (path : String) : FsAction
  | write (path : String) (content : String) : FsAction
deriving DecidableEq, Repr

/-- `writeSQLFile`: the files attempted for one entry, in program order.
`createDirectory`'s existence check and the per-file write-error printing
have no bearing on which paths are targeted and are not modelled. -/
def writeSQLFile (dir : String) (view : TableInfo) : List FsAction :=
  (if golen view.Definition > 10 then
    let infofile := generateInfoFile view
    (if golen view.Definition > 10 then
      [FsAction.write (dir ++ view.TableName ++ ".sql") view.Definition]
    else [])
    ++ (if golen infofile > 10 then
      [FsAction.write (dir ++ view.TableName ++ ".info.md") infofile]
    else [])
  else if golen view.Database > 1 then
    let infofile := generateTableInfoFile view
    if golen infofile > 10 then
      [FsAction.write (dir ++ cleanFn view.TableName ++ ".info.md") infofile]
    else []
  else [])
  ++ (let structFile := generateGoStruct view
      if golen structFile > 10 then
        [FsAction.write (dir ++ view.TableName ++ ".go") structFile]
      else [])

/-- `exportToFiles`: walks the catalog, skipping entries whose database is
`"."` or shorter than two bytes, and otherwise creates the
`⟨workingDir⟩/vcs/⟨database⟩/⟨schema⟩/` directory and writes the entry's
files into it. -/
def exportToFiles (workingDir : String) : List TableInfo → List FsAction
  | [] => []
  | view :: rest =>
    let dir := workingDir ++ "/vcs/" ++ goToLower view.Database ++ "/"
      ++ goToLower view.Schema ++ "/"
    if view.Database = "." ∨ golen view.Database < 2 then
      exportToFiles workingDir rest
    else
      (FsAction.mkdir dir :: writeSQLFile dir view) ++ exportToFiles workingDir rest

/-- An open database connection, abstracted as an oracle giving the result
of each prepared query of `database.go` for a given object name: the
object-enumeration rows (raw, before `Scan`), and the per-object view
definition, column list and (non-sqlite) dependency rows. Query/connection
failures are the `Except.error` cases. -/
structure DbConn where
  tablesQuery : Except String (List (List String))
  viewDefQ : String → Except String String
  columnsQ : String → Except String (List Column)
  depsQ : String → Except String (List (List String))

/-- `rows.Scan(&tableName, &typen)`: a row of the enumeration result must
carry exactly the two scanned columns. -/
def scan2 (row : List String) : Except String (String × String) :=
  match row with
  | [a, b] => .ok (a, b)
  | _ => .error "sql: wrong number of Scan destination arguments"

/-- `rows.Scan(&dep.ReferencedDB, &dep.ReferencedSchema, &dep.ReferencedTable)`
on one dependency row. -/
def scanDep (row : List String) : Except String Dependency :=
  match row with
  | [a, b, c] => .ok ⟨a, b, c⟩
  | _ => .error "sql: wrong number of Scan destination arguments"

/-- The `rows.Next()` loop of `queryTableDependencies`. -/
def depsLoop : List (List String) → Except String (List Dependency)
  | [] => .ok []
  | row :: rest =>
    match scanDep row with
    | .error e => .error e
    | .ok dep =>
      match depsLoop rest with
      | .error e => .error e
      | .ok deps => .ok (dep :: deps)

/-- Result rows of the sqlite dependency query
`SELECT '' as referenced_database_name, '' as referenced_schema_name, '' as
referenced_entity_name`: a constant SELECT without FROM yields exactly one
row, holding three empty strings. -/
def sqliteDepQueryRows : List (List String) := [["", "", ""]]

/-- `queryViewDefinition` from `database.go`: the engine-specific query text
is abstracted into the connection oracle, keyed by the object name. -/
def queryViewDefinition (db : DbConn) (database tableName : String)
    (config : Config) : Except String String :=
  db.viewDefQ tableName

/-- `queryTableDefinition` from `database.go`: the per-engine column query
and its scan loop, abstracted into the connection oracle. -/
def queryTableDefinition (db : DbConn) (database tableName : String)
    (config : Config) : Except String (List Column) :=
  db.columnsQ tableName

/-- `queryTableDependencies` from `database.go`: for sqlite the prepared
query is the constant three-empty-strings SELECT, whose result set is
`sqliteDepQueryRows`; for other engines the dependency rows come from the
connection oracle. Both are drained by the same scan loop. -/
def queryTableDependencies (db : DbConn) (database tableName : String)
    (config : Config) : Except String (List Dependency) :=
  if config.DBType = "sqlite" then
    depsLoop sqliteDepQueryRows
  else
    match db.depsQ tableName with
    | .error e => .error e
    | .ok rows => depsLoop rows

/-- The `rows.Next()` loop of `queryTables`: scan the (name, type) pair,
fetch definition, columns and dependencies for the object, and prepend the
assembled `TableInfo`; any error makes the whole call return that error,
discarding every entry assembled so far (`return nil, err`). The `Schema`
field of the literal is omitted in the source and is therefore the zero
value `""`. -/
def queryTablesLoop (database : String) (config : Config) (db : DbConn) :
    List (List String) → Except String (List TableInfo)
  | [] => .ok []
  | row :: rest =>
    match scan2 row with
    | .error e => .error e
    | .ok (tableName, typen) =>
      match queryViewDefinition db database tableName config with
      | .error e => .error e
      | .ok definition =>
        match queryTableDefinition db database tableName config with
        | .error e => .error e
        | .ok tablestruct =>
          match queryTableDependencies db database tableName config with
          | .error e => .error e
          | .ok dependencies =>
            match queryTablesLoop database config db rest with
            | .error e => .error e
            | .ok tables =>
              .ok ({ Database := database, Schema := "", TableName := tableName,
                     Definition := definition, Columns := tablestruct,
                     Dependencies := dependencies, «Type» := typen } :: tables)

/-- `queryTables` from `database.go`: run the enumeration query on the
connection and drain its rows. Connection-open and enumeration-query errors
are the `tablesQuery` error case. -/
def queryTables (server database : String) (config : Config) (db : DbConn) :
    Except String (List TableInfo) :=
  match db.tablesQuery with
  | .error e => .error e
  | .ok rows => queryTablesLoop database config db rows

/-- One per-database goroutine of `queryDatabases`: queries the connection
the environment assigns to that database name. -/
def taskRun (config : Config) (env : String → DbConn) (dbName : String) :
    Except String (List TableInfo) :=
  queryTables config.Server dbName config (env dbName)

/-- One step of the fan-in of `queryDatabases`: a successful task sends each
of its tables through the results channel (appending them all), a failed one
sends its single error. -/
def qdStep (config : Config) (env : String → DbConn)
    (acc : List TableInfo × List String) (dbName : String) :
    List TableInfo × List String :=
  match taskRun config env dbName with
  | .ok tables => (acc.1 ++ tables, acc.2)
  | .error e => (acc.1, acc.2 ++ [e])

/-- `queryDatabases` from `database.go`: fan out one task per configured
database, collect tables and errors from the channels, and return the
accumulated tables together with `errs[0]` (or no error). Channel delivery
order is scheduler-dependent; this embedding linearises the tasks in
configuration order, one admissible schedule — each task's contribution (its
whole table list on success, its error on failure) is the same under every
schedule. -/
def queryDatabases (config : Config) (env : String → DbConn) :
    List TableInfo × Option String :=
  let r := config.Databases.foldl (qdStep config env) ([], [])
  (r.1, r.2.head?)

/-- Tables a task contributes to the merged catalog: its full list on
success, nothing on failure. -/
def taskTables (config : Config) (env : String → DbConn) (dbName : String) :
    List TableInfo :=
  match taskRun config env dbName with
  | .ok tables => tables
  | .error _ => []

/-- The error a task contributes to the collected error list, if any. -/
def taskErrOf (config : Config) (env : String → DbConn) (dbName : String) :
    Option String :=
  match taskRun config env dbName with
  | .ok _ => none
  | .error e => some e

/-- The per-entry condition under which `exportToFiles` emits nothing. -/
def skipEntry (view : TableInfo) : Prop :=
  view.Database = "." ∨ golen view.Database < 2

instance (view : TableInfo) : Decidable (skipEntry view) := by
  unfold skipEntry; infer_instance

/-- A JSON document, the shape `encoding/json` produces and consumes. The
textual layer (rendering and parsing, which are mutually inverse for
documents `Marshal` emits) is not re-modelled; documents are trees. -/
inductive Json where
  | null : Json
  | bool (b : Bool) : Json
  | num (n : Int) : Json
  | str (s : String) : Json
  | arr (elems : List Json) : Json
  | obj (fields : List (String × Json)) : Json

/-- `json.Marshal` on a `Column`: an object with the exported field names. -/
def encodeColumn (c : Column) : Json :=
  .obj [("Name", .str c.Name), ("Type_Name", .str c.Type_Name),
        ("Max_Length", .num c.Max_Length), ("Precision", .num c.Precision),
        ("Scale", .num c.Scale), ("Collation_Name", .str c.Collation_Name),
        ("Is_Nullable", .bool c.Is_Nullable), ("Is_Identity", .bool c.Is_Identity)]

/-- `json.Marshal` on a `Dependency`. -/
def encodeDependency (d : Dependency) : Json :=
  .obj [("ReferencedDB", .str d.ReferencedDB),
        ("ReferencedSchema", .str d.ReferencedSchema),
        ("ReferencedTable", .str d.ReferencedTable)]

/-- `json.Marshal` on a `TableInfo`. -/
def encodeTableInfo (t : TableInfo) : Json :=
  .obj [("Database", .str t.Database), ("Schema", .str t.Schema),
        ("TableName", .str t.TableName), ("Definition", .str t.Definition),
        ("Columns", .arr (t.Columns.map encodeColumn)),
        ("Dependencies", .arr (t.Dependencies.map encodeDependency)),
        ("Type", .str t.«Type»)]

/-- `json.Marshal` on the `[]TableInfo` catalog. -/
def jsonMarshal (data : List TableInfo) : Json :=
  .arr (data.map encodeTableInfo)

/-- Field lookup during `json.Unmarshal`: a missing key leaves the struct
field at its zero value, embedded as the no-op document `null`. -/
def jsonField (k : String) : List (String × Json) → Json
  | [] => .null
  | (k1, v) :: rest => if k1 = k then v else jsonField k rest

/-- Unmarshal a JSON document into a `string` field. -/
def decodeStr : Json → Except String String
  | .str s => .ok s
  | .null => .ok ""
  | _ => .error "json: cannot unmarshal into field of type string"

/-- Unmarshal a JSON document into an `int` field. -/
def decodeInt : Json → Except String Int
  | .num n => .ok n
  | .null => .ok 0
  | _ => .error "json: cannot unmarshal into field of type int"

/-- Unmarshal a JSON document into a `bool` field. -/
def decodeBool : Json → Except String Bool
  | .bool b => .ok b
  | .null => .ok false
  | _ => .error "json: cannot unmarshal into field of type bool"

/-- Unmarshal one `Column` object. -/
def decodeColumn (j : Json) : Except String Column :=
  match j with
  | .obj fields => do
    let name ← decodeStr (jsonField "Name" fields)
    let typeName ← decodeStr (jsonField "Type_Name" fields)
    let maxLength ← decodeInt (jsonField "Max_Length" fields)
    let precision ← decodeInt (jsonField "Precision" fields)
    let scale ← decodeInt (jsonField "Scale" fields)
    let collationName ← decodeStr (jsonField "Collation_Name" fields)
    let isNullable ← decodeBool (jsonField "Is_Nullable" fields)
    let isIdentity ← decodeBool (jsonField "Is_Identity" fields)
    .ok ⟨name, typeName, maxLength, precision, scale, collationName,
         isNullable, isIdentity⟩
  | .null => .ok ⟨"", "", 0, 0, 0, "", false, false⟩
  | _ => .error "json: cannot unmarshal into Column"

/-- The element loop of unmarshalling a `[]Column` field. -/
def decodeColumnElems : List Json → Except String (List Column)
  | [] => .ok []
  | j :: js => do
    let c ← decodeColumn j
    let cs ← decodeColumnElems js
    .ok (c :: cs)

/-- Unmarshal a `[]Column` field: `null` leaves the nil slice. -/
def decodeColumnList : Json → Except String (List Column)
  | .null => .ok []
  | .arr elems => decodeColumnElems elems
  | _ => .error "json: cannot unmarshal into field of type []Column"

/-- Unmarshal one `Dependency` object. -/
def decodeDependency (j : Json) : Except String Dependency :=
  match j with
  | .obj fields => do
    let rdb ← decodeStr (jsonField "ReferencedDB" fields)
    let rschema ← decodeStr (jsonField "ReferencedSchema" fields)
    let rtable ← decodeStr (jsonField "ReferencedTable" fields)
    .ok ⟨rdb, rschema, rtable⟩
  | .null => .ok ⟨"", "", ""⟩
  | _ => .error "json: cannot unmarshal into Dependency"

/-- The element loop of unmarshalling a `[]Dependency` field. -/
def decodeDependencyElems : List Json → Except String (List Dependency)
  | [] => .ok []
  | j :: js => do
    let d ← decodeDependency j
    let ds ← decodeDependencyElems js
    .ok (d :: ds)

/-- Unmarshal a `[]Dependency` field: `null` leaves the nil slice. -/
def decodeDependencyList : Json → Except String (List Dependency)
  | .null => .ok []
  | .arr elems => decodeDependencyElems elems
  | _ => .error "json: cannot unmarshal into field of type []Dependency"

/-- Unmarshal one `TableInfo` object. -/
def decodeTableInfo (j : Json) : Except String TableInfo :=
  match j with
  | .obj fields => do
    let database ← decodeStr (jsonField "Database" fields)
    let schema ← decodeStr (jsonField "Schema" fields)
    let tableName ← decodeStr (jsonField "TableName" fields)
    let definition ← decodeStr (jsonField "Definition" fields)
    let columns ← decodeColumnList (jsonField "Columns" fields)
    let dependencies ← decodeDependencyList (jsonField "Dependencies" fields)
    let typen ← decodeStr (jsonField "Type" fields)
    .ok ⟨database, schema, tableName, definition, columns, dependencies, typen⟩
  | .null => .ok ⟨"", "", "", "", [], [], ""⟩
  | _ => .error "json: cannot unmarshal into TableInfo"

/-- The element loop of unmarshalling the catalog array. -/
def decodeTableInfoList : List Json → Except String (List TableInfo)
  | [] => .ok []
  | j :: js =>
    match decodeTableInfo j with
    | .error e => .error e
    | .ok t =>
      match decodeTableInfoList js with
      | .error e => .error e
      | .ok ts => .ok (t :: ts)

/-- `writeToFile` from `main.go`, specialised to the catalog: the content of
the written file is the marshalled document. Write errors concern the file
system, not the document, and are outside this model. -/
def writeToFile (marshalFunc : List TableInfo → Json) (data : List TableInfo) :
    Json :=
  marshalFunc data

/-- `parseCachedData` from `main.go`: unmarshal the cached `data.json`
document into a `[]TableInfo`; `null` unmarshals to the nil slice. -/
def parseCachedData (fileContent : Json) : Except String (List TableInfo) :=
  match fileContent with
  | .null => .ok []
  | .arr elems => decodeTableInfoList elems
  | _ => .error "json: cannot unmarshal into []TableInfo"

/-- Configuration of the two-database run used to settle the orchestrator
partial-failure claim: databases `"X"` and `"Y"` on a non-sqlite engine. -/
def cfgX : Config := ⟨"srv", "u", "p", "mssql", ["X", "Y"], [], []⟩

/-- Connection for database `"X"`: four enumerated views, whose definition
fetch succeeds for `a1`, `a2`, `a3` and fails for `a4`. -/
def connX : DbConn :=
  ⟨.ok [["a1", "VIEW"], ["a2", "VIEW"], ["a3", "VIEW"], ["a4", "VIEW"]],
   fun t => if t = "a4" then .error "boom: a4" else .ok ("def " ++ t),
   fun _ => .ok [], fun _ => .ok []⟩

/-- Connection for database `"Y"`: two objects, every fetch succeeds. -/
def connY : DbConn :=
  ⟨.ok [["b1", "BASE TABLE"], ["b2", "VIEW"]],
   fun t => .ok ("def " ++ t), fun _ => .ok [], fun _ => .ok []⟩

/-- Environment binding `"X"` to `connX` and every other name to `connY`. -/
def envX : String → DbConn := fun d => if d = "X" then connX else connY

/-- The first three enumeration rows of `connX`, each of which is fully
processable. -/
def rowsX3 : List (List String) := [["a1", "VIEW"], ["a2", "VIEW"], ["a3", "VIEW"]]

/-- The first entry task `"X"` assembles before its later object fails. -/
def tX1 : TableInfo := ⟨"X", "", "a1", "def a1", [], [], "VIEW"⟩

/-- The second such entry. -/
def tX2 : TableInfo := ⟨"X", "", "a2", "def a2", [], [], "VIEW"⟩

/-- The third such entry. -/
def tX3 : TableInfo := ⟨"X", "", "a3", "def a3", [], [], "VIEW"⟩

/-- The first entry of the fully succeeding task `"Y"`. -/
def tY1 : TableInfo := ⟨"Y", "", "b1", "def b1", [], [], "BASE TABLE"⟩

/-- The second entry of the fully succeeding task `"Y"`. -/
def tY2 : TableInfo := ⟨"Y", "", "b2", "def b2", [], [], "VIEW"⟩

/-- Configuration of the run with two failing tasks, for the
error-aggregation claim. -/
def cfg2 : Config := ⟨"srv", "u", "p", "mssql", ["X", "Y"], [], []⟩

/-- Environment in which every database's enumeration query fails with an
error naming that database. -/
def env2 : String → DbConn :=
  fun d => ⟨.error ("err" ++ d), fun _ => .ok "", fun _ => .ok [], fun _ => .ok []⟩

/-- A sqlite configuration, for the dependency-introspection claim. -/
def cfgSqlite : Config := ⟨"file.db", "", "", "sqlite", ["main"], [], []⟩

/-- An arbitrary healthy connection; the sqlite dependency query never
consults it. -/
def connDummy : DbConn :=
  ⟨.ok [], fun _ => .ok "", fun _ => .ok [], fun _ => .ok []⟩

/-- A non-sqlite configuration for the schema-field witness. -/
def cfgW : Config := ⟨"srv", "u", "p", "mssql", ["W"], [], []⟩

/-- A connection enumerating a single fully processable object. -/
def connW : DbConn :=
  ⟨.ok [["t1", "BASE TABLE"]], fun _ => .ok "", fun _ => .ok [], fun _ => .ok []⟩

/-- The entry `connW`'s single object assembles into. -/
def tW : TableInfo := ⟨"W", "", "t1", "", [], [], "BASE TABLE"⟩

/-- An entry whose name embeds a path separator and whose definition is
longer than the ten-byte threshold, for the filename-sanitisation claim. -/
def viewSlash : TableInfo :=
  ⟨"db1", "s", "Sales/Orders", "SELECT 42 AS answer", [], [], "VIEW"⟩

/-- The schema directory `exportToFiles` derives for `viewSlash`. -/
def dirSlash : String := "wd/vcs/db1/s/"

/-- A dependency edge with every field empty, the shape the sqlite
dependency query produces. -/
def emptyDep : Dependency := ⟨"", "", ""⟩

/-- A minimal view owning exactly one empty-target dependency edge, for the
dependency-rendering claim. -/
def view4 : TableInfo := ⟨"db", "s", "v", "", [], [emptyDep], "VIEW"⟩

/-- C6: `filterData` keeps an entry exactly when the include list is empty
or contains the entry's table name, and the exclude list does not contain
it — so an entry on both lists is dropped — and it is the `List.filter` of
its input by that predicate, hence kept entries stay in input order and the
input is untouched. -/
theorem filterData_spec (data : List TableInfo)
    (includeTables excludeTables : List String) :
    filterData data includeTables excludeTables =
      data.filter (fun t =>
        (includeTables.isEmpty || includeTables.contains t.TableName)
          && !excludeTables.contains t.TableName) := by
  induction data with
  | nil => rfl
  | cons t rest ih =>
    simp only [filterData, List.filter_cons]
    cases hie : includeTables.isEmpty <;>
      cases hic : includeTables.contains t.TableName <;>
        cases hec : excludeTables.contains t.TableName <;>
          simp [hie, hic, hec, ih]

/-- C9: `exportToFiles` produces exactly the output of the entries whose
database field is neither `"."` nor shorter than two bytes; an entry with a
placeholder database contributes no directory creation and no file write,
whatever its columns and definition. -/
theorem exportToFiles_skips_placeholder_databases (workingDir : String)
    (j : List TableInfo) :
    exportToFiles workingDir j =
      (j.filter (fun view => !decide (skipEntry view))).flatMap (fun view =>
        FsAction.mkdir (workingDir ++ "/vcs/" ++ goToLower view.Database ++ "/"
            ++ goToLower view.Schema ++ "/")
          :: writeSQLFile (workingDir ++ "/vcs/" ++ goToLower view.Database
            ++ "/" ++ goToLower view.Schema ++ "/") view) := by
  induction j with
  | nil => rfl
  | cons view rest ih =>
    by_cases h : skipEntry view
    · have hcond : view.Database = "." ∨ golen view.Database < 2 := h
      simp [exportToFiles, hcond, ih, List.filter_cons, h]
    · have hcond : ¬ (view.Database = "." ∨ golen view.Database < 2) := h
      simp [exportToFiles, hcond, ih, List.filter_cons, h]

/-- Every entry assembled by the enumeration loop has the zero-valued
schema, since the `TableInfo` literal in the source never sets `Schema`. -/
theorem queryTablesLoop_schema_empty (database : String) (config : Config)
    (db : DbConn) :
    ∀ rows tables, queryTablesLoop database config db rows = .ok tables →
      ∀ t ∈ tables, t.Schema = "" := by
  intro rows
  induction rows with
  | nil =>
    intro tables h t ht
    cases h
    simp at ht
  | cons row rest ih =>
    intro tables h t ht
    unfold queryTablesLoop at h
    cases hs : scan2 row with
    | error e => rw [hs] at h; cases h
    | ok p =>
      rw [hs] at h
      obtain ⟨tableName, typen⟩ := p
      dsimp only at h
      cases hv : queryViewDefinition db database tableName config with
      | error e => rw [hv] at h; cases h
      | ok defn =>
        rw [hv] at h
        cases hc : queryTableDefinition db database tableName config with
        | error e => rw [hc] at h; cases h
        | ok cols =>
          rw [hc] at h
          cases hd : queryTableDependencies db database tableName config with
          | error e => rw [hd] at h; cases h
          | ok deps =>
            rw [hd] at h
            cases hr : queryTablesLoop database config db rest with
            | error e => rw [hr] at h; cases h
            | ok ts1 =>
              rw [hr] at h
              cases h
              rcases List.mem_cons.mp ht with rfl | hmem
              · rfl
              · exact ih ts1 hr t hmem

/-- C10: every `TableInfo` a successful `queryTables` run returns carries an
empty `Schema` field, for every engine kind and every enumerated object: the
enumeration query's schema column is never scanned into the entry. -/
theorem queryTables_schema_always_empty (server database : String)
    (config : Config) (db : DbConn) (tables : List TableInfo)
    (h : queryTables server database config db = .ok tables) :
    ∀ t ∈ tables, t.Schema = "" := by
  unfold queryTables at h
  cases hq : db.tablesQuery with
  | error e => rw [hq] at h; cases h
  | ok rows =>
    rw [hq] at h
    exact queryTablesLoop_schema_empty database config db rows tables h

/-- Witness for C10 at a concrete one-object connection. -/
theorem queryTables_schema_always_empty_witness : tW.Schema = "" :=
  queryTables_schema_always_empty "srv" "W" cfgW connW [tW] (by rfl) tW
    (by simp)

/-- The fan-in fold of `queryDatabases`, characterised: from any
accumulator, it appends every successful task's tables and every failed
task's error, in task order. -/
theorem qdFoldl_spec (config : Config) (env : String → DbConn) :
    ∀ (dbs : List String) (acc : List TableInfo × List String),
      dbs.foldl (qdStep config env) acc =
        (acc.1 ++ dbs.flatMap (taskTables config env),
         acc.2 ++ dbs.filterMap (taskErrOf config env)) := by
  intro dbs
  induction dbs with
  | nil => intro acc; simp
  | cons d rest ih =>
    intro acc
    rw [List.foldl_cons, List.flatMap_cons]
    cases h : taskRun config env d with
    | ok tables =>
      have h1 : taskTables config env d = tables := by simp [taskTables, h]
      have h2 : taskErrOf config env d = none := by simp [taskErrOf, h]
      have h3 : qdStep config env acc d = (acc.1 ++ tables, acc.2) := by
        simp [qdStep, h]
      rw [h1, h3, ih]
      simp [h2, List.append_assoc]
    | error e =>
      have h1 : taskTables config env d = [] := by simp [taskTables, h]
      have h2 : taskErrOf config env d = some e := by simp [taskErrOf, h]
      have h3 : qdStep config env acc d = (acc.1, acc.2 ++ [e]) := by
        simp [qdStep, h]
      rw [h1, h3, ih]
      simp [h2, List.append_assoc]

/-- C1 (amended): the catalog `queryDatabases` returns is exactly the
concatenation of the table lists of the tasks that succeeded in full; a task
that fails contributes nothing, because `queryTables` discards its partial
list when any object errors — partial production inside a task IS rolled
back, while completed tasks are unaffected. -/
theorem queryDatabases_failed_task_contributes_nothing (config : Config)
    (env : String → DbConn) :
    (queryDatabases config env).1 =
      config.Databases.flatMap (taskTables config env) := by
  unfold queryDatabases
  rw [qdFoldl_spec config env config.Databases ([], [])]
  simp

/-- C1 counterexample: task `"X"` fails on its fourth object after its first
three objects were fully processed (the three-row prefix assembles three
complete entries), task `"Y"` succeeds fully; the returned catalog holds
only `Y`'s two entries — none of `X`'s three already-assembled entries
survives — alongside `X`'s error. -/
theorem queryDatabases_partial_entries_dropped_cex :
    queryTablesLoop "X" cfgX connX rowsX3 = .ok [tX1, tX2, tX3]
      ∧ queryDatabases cfgX envX = ([tY1, tY2], some "boom: a4")
      ∧ tX1 ∉ [tY1, tY2] ∧ tX2 ∉ [tY1, tY2] ∧ tX3 ∉ [tY1, tY2] := by
  refine ⟨by rfl, by rfl, ?_, ?_, ?_⟩ <;> decide

/-- C2 (amended): `queryDatabases` returns the merged catalog together with
only the FIRST collected error — `errs[0]` — or none when every task
succeeds; the errors of further failing tasks are dropped, since the
function's signature carries a single `error`. -/
theorem queryDatabases_returns_first_error_only (config : Config)
    (env : String → DbConn) :
    (queryDatabases config env).2 =
      (config.Databases.filterMap (taskErrOf config env)).head? := by
  unfold queryDatabases
  rw [qdFoldl_spec config env config.Databases ([], [])]
  simp

/-- C2 counterexample: with both configured databases failing (errors
`"errX"` and `"errY"`), the run returns only `"errX"`; `"errY"` appears
nowhere in the result, so not every accumulated error is returned. -/
theorem queryDatabases_second_error_dropped_cex :
    queryDatabases cfg2 env2 = ([], some "errX")
      ∧ taskRun cfg2 env2 "Y" = .error "errY"
      ∧ (some "errX" : Option String) ≠ some "errY" := by
  refine ⟨by rfl, by rfl, by decide⟩

/-- C5 (amended): on the engine kind without dependency-tracking catalogs
(sqlite), `queryTableDependencies` succeeds without consulting the
connection, but returns a single dependency whose three fields are all
empty — the constant fallback SELECT yields one row, not zero. -/
theorem queryTableDependencies_sqlite_single_empty_row (db : DbConn)
    (database tableName : String) (config : Config)
    (h : config.DBType = "sqlite") :
    queryTableDependencies db database tableName config = .ok [emptyDep] := by
  unfold queryTableDependencies
  rw [if_pos h]
  rfl

/-- Witness for C5 (amended) at a concrete connection and configuration. -/
theorem queryTableDependencies_sqlite_single_empty_row_witness :
    queryTableDependencies connDummy "db0" "t0" cfgSqlite = .ok [emptyDep] :=
  queryTableDependencies_sqlite_single_empty_row connDummy "db0" "t0"
    cfgSqlite rfl

/-- C5 counterexample: for a concrete sqlite run the dependency list is
`[emptyDep]`, which is not the empty list the claim promises. -/
theorem queryTableDependencies_sqlite_not_empty_cex :
    queryTableDependencies connDummy "main" "t" cfgSqlite = .ok [emptyDep]
      ∧ ([emptyDep] : List Dependency) ≠ [] :=
  ⟨by rfl, by decide⟩

/-- The dependency-row fold of `generateInfoFile`, restarted from any
accumulator, appends exactly `depTable`. -/
theorem depFoldl_append (deps : List Dependency) :
    ∀ acc : String,
      deps.foldl (fun infofile dep => infofile ++ depRow dep) acc =
        acc ++ depTable deps := by
  induction deps with
  | nil => intro acc; simp [depTable]
  | cons d rest ih =>
    intro acc
    have hd : depTable (d :: rest) = depRow d ++ depTable rest := by
      unfold depTable
      rw [List.foldl_cons, ih ("" ++ depRow d), String.empty_append]
      rfl
    rw [List.foldl_cons, ih (acc ++ depRow d), hd, String.append_assoc]

/-- Every member of the dependency list owns a row inside `depTable`. -/
theorem depTable_contains_row (deps : List Dependency) (dep : Dependency)
    (h : dep ∈ deps) :
    ∃ p q, depTable deps = p ++ depRow dep ++ q := by
  induction deps with
  | nil => cases h
  | cons d rest ih =>
    have hd : depTable (d :: rest) = depRow d ++ depTable rest := by
      unfold depTable
      rw [List.foldl_cons, depFoldl_append rest ("" ++ depRow d),
        String.empty_append]
      rfl
    rcases List.mem_cons.mp h with rfl | hmem
    · exact ⟨"", depTable rest, by rw [hd, String.empty_append]⟩
    · obtain ⟨p, q, hpq⟩ := ih hmem
      refine ⟨depRow d ++ p, q, ?_⟩
      rw [hd, hpq, String.append_assoc, String.append_assoc,
        String.append_assoc]

/-- C4 (amended): every dependency edge of an entry — including one whose
referenced-table field is empty — is rendered as a row of the dependency
table inside the entry's information document; no edge filtering exists. -/
theorem generateInfoFile_renders_every_dependency_edge (view : TableInfo)
    (dep : Dependency) (h : dep ∈ view.Dependencies) :
    ∃ pre post, generateInfoFile view = pre ++ depRow dep ++ post := by
  obtain ⟨p, q, hpq⟩ := depTable_contains_row view.Dependencies dep h
  refine ⟨infoHead view ++ p, q ++ "\n\n", ?_⟩
  unfold generateInfoFile
  rw [depFoldl_append view.Dependencies (infoHead view), hpq]
  simp only [String.append_assoc]

/-- Witness for C4 (amended): the all-empty edge of `view4` gets a row in
the rendered document. -/
theorem generateInfoFile_renders_every_dependency_edge_witness :
    ∃ pre post, generateInfoFile view4 = pre ++ depRow emptyDep ++ post :=
  generateInfoFile_renders_every_dependency_edge view4 emptyDep (by decide)

set_option maxRecDepth 8000 in
/-- C4 counterexample: for `view4`, whose only dependency edge has an empty
referenced-table field, the rendered information document ends with that
edge's (non-empty) dependency-table row — the edge does appear. -/
theorem generateInfoFile_empty_target_edge_rendered_cex :
    emptyDep ∈ view4.Dependencies ∧ emptyDep.ReferencedTable = ""
      ∧ depRow emptyDep = "||[](../..///.info.md)\n"
      ∧ depRow emptyDep ≠ ""
      ∧ generateInfoFile view4 =
        "# Infodatei zum View [db.s.v](../../db/s/v.sql)\n\n\n\n## Tabellenstruktur\n\nName|Type|Length|Precision|Scale|Collation|Nullable|Identity\n--|--|--|--|--|--|--|--\n\n\n## Änderungen\n\nBenutzer|Datum|Kommentar\n--|--|--\n\n## Abhängigkeiten\n\nDB|Schema|Tabelle/View\n--|--|--\n"
          ++ "||[](../..///.info.md)\n" ++ "\n\n" := by
  refine ⟨by decide, by rfl, by rfl, by decide, by rfl⟩

set_option maxRecDepth 8000 in
/-- C3: at the failing input `viewSlash` (table name `"Sales/Orders"`,
definition above the length threshold), `writeSQLFile` targets the raw
name — containing the path separator — for the `.sql`, `.info.md` and `.go`
files alike; `cleanFn` would have rewritten it to `"Sales-Orders"` but is
not applied on this path. -/
theorem writeSQLFile_unsanitized_paths :
    writeSQLFile dirSlash viewSlash =
      [.write (dirSlash ++ "Sales/Orders" ++ ".sql") viewSlash.Definition,
       .write (dirSlash ++ "Sales/Orders" ++ ".info.md")
         (generateInfoFile viewSlash),
       .write (dirSlash ++ "Sales/Orders" ++ ".go")
         (generateGoStruct viewSlash)]
      ∧ cleanFn "Sales/Orders" = "Sales-Orders"
      ∧ ("Sales/Orders" : String) ≠ "Sales-Orders" := by
  refine ⟨by rfl, by rfl, by decide⟩

/-- C8: `extractDataFromComment` is all-or-nothing — if any of the three
labels (creator, creation date, description/comment) fails to match, the
result is the empty triple with the zero timestamp, never a partial tuple;
and whenever the date capture does not parse under the strict fixed format,
the returned timestamp is the zero value, without the call failing. -/
theorem extractDataFromComment_all_or_nothing (comment : String) :
    ((findCap creatorLabel comment.data = none
        ∨ findCap dateLabel comment.data = none
        ∨ findCap2 kommentarLabel descriptionLabel comment.data = none) →
      extractDataFromComment comment = ("", zeroGoTime, ""))
    ∧ (∀ creationDate, findCap dateLabel comment.data = some creationDate →
        parseGoDate creationDate = none →
        (extractDataFromComment comment).2.1 = zeroGoTime) := by
  constructor
  · intro h
    cases h1 : findCap creatorLabel comment.data <;>
      cases h2 : findCap dateLabel comment.data <;>
        cases h3 : findCap2 kommentarLabel descriptionLabel comment.data <;>
          simp_all [extractDataFromComment]
  · intro creationDate hdt hparse
    cases h1 : findCap creatorLabel comment.data <;>
      cases h3 : findCap2 kommentarLabel descriptionLabel comment.data <;>
        simp_all [extractDataFromComment]

/-- Witness for C8 at two concrete definitions: one with creator and date
labels but no description label (empty triple), and one with all three
labels but an unparseable date (zero timestamp). -/
theorem extractDataFromComment_all_or_nothing_witness :
    extractDataFromComment
        "Ersteller/in: Alice\nErstelldatum: 2023-05-01\n" = ("", zeroGoTime, "")
      ∧ (extractDataFromComment
          "Ersteller/in: Bob\nErstelldatum: not-a-date\nKommentar: hi").2.1
        = zeroGoTime :=
  ⟨(extractDataFromComment_all_or_nothing
      "Ersteller/in: Alice\nErstelldatum: 2023-05-01\n").1
      (Or.inr (Or.inr (by decide))),
   (extractDataFromComment_all_or_nothing
      "Ersteller/in: Bob\nErstelldatum: not-a-date\nKommentar: hi").2
      "not-a-date".data (by decide) (by decide)⟩

/-- Unmarshalling inverts marshalling on one `Column`. -/
theorem decodeColumn_encodeColumn (c : Column) :
    decodeColumn (encodeColumn c) = .ok c := rfl

/-- Unmarshalling inverts marshalling on a `[]Column` element list. -/
theorem decodeColumnElems_roundtrip (cs : List Column) :
    decodeColumnElems (cs.map encodeColumn) = .ok cs := by
  induction cs with
  | nil => rfl
  | cons c rest ih =>
    simp [decodeColumnElems, decodeColumn_encodeColumn, ih]
    rfl

/-- Unmarshalling inverts marshalling on one `Dependency`. -/
theorem decodeDependency_encodeDependency (d : Dependency) :
    decodeDependency (encodeDependency d) = .ok d := rfl

/-- Unmarshalling inverts marshalling on a `[]Dependency` element list. -/
theorem decodeDependencyElems_roundtrip (ds : List Dependency) :
    decodeDependencyElems (ds.map encodeDependency) = .ok ds := by
  induction ds with
  | nil => rfl
  | cons d rest ih =>
    simp [decodeDependencyElems, decodeDependency_encodeDependency, ih]
    rfl

/-- Unmarshalling inverts marshalling on one `TableInfo`. -/
theorem decodeTableInfo_encodeTableInfo (t : TableInfo) :
    decodeTableInfo (encodeTableInfo t) = .ok t := by
  unfold decodeTableInfo encodeTableInfo
  simp [jsonField, decodeStr, decodeColumnList, decodeColumnElems_roundtrip,
    decodeDependencyList, decodeDependencyElems_roundtrip]
  rfl

/-- Unmarshalling inverts marshalling on the catalog element list. -/
theorem decodeTableInfoList_roundtrip (ts : List TableInfo) :
    decodeTableInfoList (ts.map encodeTableInfo) = .ok ts := by
  induction ts with
  | nil => rfl
  | cons t rest ih =>
    simp [decodeTableInfoList, decodeTableInfo_encodeTableInfo, ih]

/-- C7: writing any catalog with the structured JSON writer and reading the
written document back with the cached-data reader reproduces the catalog
field-for-field — for the empty catalog, one entry, many entries, and
entries with empty column or dependency lists alike. -/
theorem parseCachedData_writeToFile_roundtrip (data : List TableInfo) :
    parseCachedData (writeToFile jsonMarshal data) = .ok data := by
  unfold parseCachedData writeToFile jsonMarshal
  exact decodeTableInfoList_roundtrip data

end DatabaseExtractor
